import Mathlib

/-!
Verification of the map-based likelihood estimator in `bfore/maplike.py`
(`MapLike` and its helpers), via a shallow embedding into Lean.

Arrays are embedded as functions over `Fin`-indexed axes, with rational
entries standing for the exact real arithmetic the numpy expressions denote.
Python behaviours with an error outcome (`exit()` on a failed configuration
check, `NameError` from an unbound local, `UnboundLocalError` in
`split_data`) are embedded as `Except PyError` results.
-/

namespace Bfore

/-- Error outcomes observable from the Python code: `exit()` after a failed
configuration check in `check_parameters` (the spec's `ConfigError`), the
`NameError` raised by evaluating the unbound name `amp_mean` in `chi2perdof`
and `pval`, and the `UnboundLocalError` raised in `split_data` when the
selection argument matches none of the `isinstance` branches. -/
inductive PyError where
  | configError
  | nameError
  | unboundLocalError
  deriving DecidableEq, Repr

/-! ## Configuration / validation gate (`MapLike.check_parameters`) -/

/-- Source `MapLike.check_parameters`: fails (print + `exit()`) when some variable
parameter name is also a fixed parameter name, or when the set of names
required by the sky model differs from the union of the fixed and variable
names declared in the configuration.  `fixed_pars` is represented by its list
of keys, `var_pars` by its list of names, and `model_pars` is the result of
`self.sky.get_param_names()`. -/
def check_parameters (fixed_pars var_pars model_pars : List String) :
    Except PyError Unit :=
  if var_pars.any (fun par => fixed_pars.contains par) then
    Except.error PyError.configError
  else if ¬ (model_pars.toFinset = fixed_pars.toFinset ∪ var_pars.toFinset) then
    Except.error PyError.configError
  else
    Except.ok ()

/-- Source `MapLike.__init__`: runs `check_parameters` before `read_data`; the data
(of abstract type `α`, produced by the excluded I/O collaborator) is only
loaded when the check succeeds. -/
def mapLikeInit {α : Type} (fixed_pars var_pars model_pars : List String)
    (read_data : α) : Except PyError α :=
  match check_parameters fixed_pars var_pars model_pars with
  | Except.error e => Except.error e
  | Except.ok _ => Except.ok read_data

/-! ## Spatial binning indexer (`MapLike.split_data`) -/

/-- External `healpy.nside2npix`: a HEALPix map at resolution parameter `nside` has
`12 * nside ^ 2` pixels. -/
def nside2npix (nside : ℕ) : ℕ := 12 * nside ^ 2

/-- The selection argument `ipix` of `MapLike.split_data`: `None`, a Python
`int`, a Python `list`, or any other value (tuple, range, numpy integer, ...)
matched by neither `isinstance` test. -/
inductive IpixArg where
  | none
  | int (i : ℕ)
  | list (l : List ℕ)
  | other
  deriving DecidableEq

/-- The list of nested-scheme base pixel indices of one spectral region: the
body of the loop in `MapLike.split_data` computes
`inds = hp.nest2ring(nside_base, range(i * nside_sub, (i + 1) * nside_sub))`.
`nest2ring` is the external HEALPix nested-to-ring index conversion, passed in
as the function `n2r`. -/
def regionInds (nside_sub : ℕ) (n2r : ℕ → ℕ) (i : ℕ) : List ℕ :=
  (List.range nside_sub).map (fun j => n2r (i * nside_sub + j))

/-- Source `MapLike.split_data`: computes `npix_spec = nside2npix(nside_spec)`,
`npix_base = nside2npix(nside_base)`, `nside_sub = int(npix_base / npix_spec)`
(floor of the ratio; no divisibility check is performed), resolves the
selection argument (`ipixs` is left unassigned when `ipix` is neither `None`,
an `int` nor a `list`, so the first loop iteration raises
`UnboundLocalError`), and yields per region `i` the index group
`regionInds nside_sub n2r i`; the data yielded for the region is the slice
`data[:, :, inds]` of the stored maps, determined by that group. -/
def split_data (nside_spec nside_base : ℕ) (n2r : ℕ → ℕ) (ipix : IpixArg) :
    Except PyError (List (List ℕ)) :=
  let npix_spec := nside2npix nside_spec
  let npix_base := nside2npix nside_base
  let nside_sub := npix_base / npix_spec
  match ipix with
  | IpixArg.none =>
      Except.ok ((List.range npix_spec).map (regionInds nside_sub n2r))
  | IpixArg.int i => Except.ok ([i].map (regionInds nside_sub n2r))
  | IpixArg.list l => Except.ok (l.map (regionInds nside_sub n2r))
  | IpixArg.other => Except.error PyError.unboundLocalError

/-! ## Mixing-matrix builder (`MapLike.f_matrix`) -/

/-- The spectral-parameter dictionary built inside `MapLike.f_matrix`:
`spec_params = {n: v for n, v in zip(self.var_pars, var_pars_list)}` followed
by `spec_params.update(self.fixed_pars)`.  `zip` truncates to the shorter of
the two sequences; for duplicate names the last `zip` pair wins, and a fixed
parameter overrides a variable one of the same name.  The dictionary is
embedded as its lookup function. -/
def buildSpecParams (var_pars : List String) (var_pars_list : List ℚ)
    (fixed_pars : List (String × ℚ)) : String → Option ℚ :=
  fun name =>
    match fixed_pars.lookup name with
    | some v => some v
    | none => ((var_pars.zip var_pars_list).reverse).lookup name

/-- Source `MapLike.f_matrix`: builds the merged parameter dictionary and delegates
to the sky model's SED function `self.sky.fnu(self.nus, spec_params)`, an
external collaborator passed in as `fnu`. -/
def f_matrix {α : Type} (fnu : (String → Option ℚ) → α)
    (var_pars : List String) (var_pars_list : List ℚ)
    (fixed_pars : List (String × ℚ)) : α :=
  fnu (buildSpecParams var_pars var_pars_list fixed_pars)

/-! ## Amplitude estimator
(`MapLike.get_amplitude_covariance`, `MapLike.get_amplitude_mean`)

An `f_matrix` value has shape `(N_comp, N_pol, N_freq)`, a data or
inverse-variance map has shape `(N_freq, N_pol, N_pix)`. -/

/-- Einsum `"ijk,ljk->jilk"` applied to `(f_matrix, f_matrix)` in
`MapLike.get_amplitude_covariance`: the per-(polarization, frequency) outer
product of the mixing matrix with itself,
shape `(N_pol, N_comp, N_comp, N_freq)`. -/
def f_mat_outer {nc np nf : ℕ} (f_mat : Fin nc → Fin np → Fin nf → ℚ) :
    Fin np → Fin nc → Fin nc → Fin nf → ℚ :=
  fun j i l k => f_mat i j k * f_mat l j k

/-- Source `MapLike.get_amplitude_covariance`:
`np.einsum("ijkl,lin->injk", f_mat_outer, n_ivar_map)`, contracting the outer
product with the inverse-noise-variance map over the frequency axis; the
result has shape `(N_pol, N_pix, N_comp, N_comp)` and is viewed here as a
component-by-component matrix for each (polarization, pixel). -/
def get_amplitude_covariance {nc np nf npix : ℕ}
    (n_ivar_map : Fin nf → Fin np → Fin npix → ℚ)
    (f_mat : Fin nc → Fin np → Fin nf → ℚ) :
    Fin np → Fin npix → Matrix (Fin nc) (Fin nc) ℚ :=
  fun i n => Matrix.of fun j k =>
    ∑ l, f_mat_outer f_mat i j k l * n_ivar_map l i n

/-- Einsum `"jik,kil,kil->ilj"` applied to `(f_matrix, n_ivar_map, d_map)` in
`MapLike.get_amplitude_mean`: the weighted-data vector `y = F^T N⁻¹ d`,
shape `(N_pol, N_pix, N_comp)`. -/
def y {nc np nf npix : ℕ} (f_mat : Fin nc → Fin np → Fin nf → ℚ)
    (n_ivar_map d_map : Fin nf → Fin np → Fin npix → ℚ) :
    Fin np → Fin npix → Fin nc → ℚ :=
  fun i l j => ∑ k, f_mat j i k * n_ivar_map k i l * d_map k i l

/-- External `np.linalg.solve(a, b)` for an invertible square matrix `a` and a vector
`b`: the unique solution of `a · x = b`, expressed through the adjugate
formula for the inverse (exact rational arithmetic; numpy raises on an
exactly singular matrix, a case no claim here exercises). -/
def solveLin {n : ℕ} (a : Matrix (Fin n) (Fin n) ℚ) (b : Fin n → ℚ) :
    Fin n → ℚ :=
  a.det⁻¹ • (a.adjugate.mulVec b)

/-- Source `MapLike.get_amplitude_mean`: forms the weighted-data vector `y` and
solves `N_T⁻¹ · T̄ = y` independently for every (polarization, pixel) slice
(`np.linalg.solve` broadcasts over the two leading axes); the result has
shape `(N_pol, N_pix, N_comp)`. -/
def get_amplitude_mean {nc np nf npix : ℕ}
    (d_map n_ivar_map : Fin nf → Fin np → Fin npix → ℚ)
    (f_mat : Fin nc → Fin np → Fin nf → ℚ) :
    Fin np → Fin npix → Fin nc → ℚ :=
  fun i n =>
    solveLin (get_amplitude_covariance n_ivar_map f_mat i n)
      (y f_mat n_ivar_map d_map i n)

/-! ## Likelihood / statistics evaluator -/

/-- Source `MapLike.marginal_spectral_likelihood`: computes the mixing matrix,
amplitude covariance and amplitude mean for the proposed parameters and
returns `np.einsum("ijk,ijkl,ijl->", amp_mean, amp_covar_matrix, amp_mean)`,
the scalar quadratic form summed over all axes. -/
def marginal_spectral_likelihood {nc np nf npix : ℕ}
    (f_mat : Fin nc → Fin np → Fin nf → ℚ)
    (d_map n_ivar_map : Fin nf → Fin np → Fin npix → ℚ) : ℚ :=
  let amp_mean := get_amplitude_mean d_map n_ivar_map f_mat
  let amp_covar_matrix := get_amplitude_covariance n_ivar_map f_mat
  ∑ i, ∑ j, ∑ k, ∑ l,
    amp_mean i j k * amp_covar_matrix i j k l * amp_mean i j l

/-- The residual `res = d_map - np.einsum("ijk,jli->kjl", f_matrix, amp_mean)`
computed in `MapLike.chi2`: the data minus the best-fit amplitudes
re-projected to frequency space, shape `(N_freq, N_pol, N_pix)`. -/
def chi2_res {nc np nf npix : ℕ} (f_mat : Fin nc → Fin np → Fin nf → ℚ)
    (d_map n_ivar_map : Fin nf → Fin np → Fin npix → ℚ) :
    Fin nf → Fin np → Fin npix → ℚ :=
  let amp_mean := get_amplitude_mean d_map n_ivar_map f_mat
  fun k j l => d_map k j l - ∑ i, f_mat i j k * amp_mean j l i

/-- Source `MapLike.chi2`: recomputes the amplitude mean for the given data and
returns `np.einsum("ijk,ijk,ijk->", res, n_ivar_map, res)`, the
noise-weighted sum of squared residuals.  (The local `dof` computed in the
source is unused by this function.) -/
def chi2 {nc np nf npix : ℕ} (f_mat : Fin nc → Fin np → Fin nf → ℚ)
    (d_map n_ivar_map : Fin nf → Fin np → Fin npix → ℚ) : ℚ :=
  let res := chi2_res f_mat d_map n_ivar_map
  ∑ i, ∑ j, ∑ k, res i j k * n_ivar_map i j k * res i j k

/-- Source `MapLike.chi2perdof`: computes `chi2`, then evaluates
`dof = len(d_map.flatten()) - len(self.var_pars) - len(amp_mean.flatten())`.
The name `amp_mean` is bound in no enclosing scope (it is a local of `chi2`,
not of `chi2perdof`, and no module-level `amp_mean` exists), so the `dof`
line raises `NameError` before any quotient is formed. -/
def chi2perdof {nc np nf npix : ℕ} (f_mat : Fin nc → Fin np → Fin nf → ℚ)
    (d_map n_ivar_map : Fin nf → Fin np → Fin npix → ℚ) : Except PyError ℚ :=
  let _chi2val := chi2 f_mat d_map n_ivar_map
  Except.error PyError.nameError

/-- Source `MapLike.pval`: computes `chi2`, then evaluates the same `dof` line as
`chi2perdof`, which raises `NameError` on the unbound name `amp_mean` before
`1. - stats.chi2.cdf(chi2, dof)` (the external chi-squared CDF collaborator
`cdf`) is ever reached. -/
def pval {nc np nf npix : ℕ} (cdf : ℚ → ℤ → ℚ)
    (f_mat : Fin nc → Fin np → Fin nf → ℚ)
    (d_map n_ivar_map : Fin nf → Fin np → Fin npix → ℚ) : Except PyError ℚ :=
  let _chi2val := chi2 f_mat d_map n_ivar_map
  Except.error PyError.nameError

/-! ## The spec's concrete scenario

3 frequencies, 1 polarization channel, 1 component, 1 pixel; mixing matrix
`F = [1, 1, 1]`, inverse variance `n_ivar = [1, 1, 1]`, data `d = [2, 2, 2]`
(matched case) or `d = [2, 2, 4]` (mismatch case). -/

/-- Mixing matrix `F = [1, 1, 1]` of the concrete scenario,
shape `(N_comp, N_pol, N_freq) = (1, 1, 3)`. -/
def cF : Fin 1 → Fin 1 → Fin 3 → ℚ := fun _ _ _ => 1

/-- Data map `d = [2, 2, 2]` of the matched concrete scenario,
shape `(N_freq, N_pol, N_pix) = (3, 1, 1)`. -/
def cdmatch : Fin 3 → Fin 1 → Fin 1 → ℚ := fun _ _ _ => 2

/-- Data map `d = [2, 2, 4]` of the mismatch concrete scenario. -/
def cdmis : Fin 3 → Fin 1 → Fin 1 → ℚ := fun k _ _ => if k.val = 2 then 4 else 2

/-- Inverse-noise-variance map `n_ivar = [1, 1, 1]` of the concrete
scenario. -/
def civar : Fin 3 → Fin 1 → Fin 1 → ℚ := fun _ _ _ => 1

/-! ## Helper lemmas -/

/-- Solving with the adjugate formula really solves the system when the
matrix is invertible. -/
theorem solveLin_mulVec {n : ℕ} (a : Matrix (Fin n) (Fin n) ℚ) (b : Fin n → ℚ)
    (h : a.det ≠ 0) : a.mulVec (solveLin a b) = b := by
  unfold solveLin
  rw [Matrix.mulVec_smul, Matrix.mulVec_mulVec, Matrix.mul_adjugate,
    Matrix.smul_mulVec_assoc, Matrix.one_mulVec, inv_smul_smul₀ h]

/-- For a 1-by-1 system the adjugate solve is division by the single entry. -/
theorem solveLin_fin_one (a : Matrix (Fin 1) (Fin 1) ℚ) (b : Fin 1 → ℚ)
    (j : Fin 1) : solveLin a b j = (a 0 0)⁻¹ * b j := by
  simp [solveLin, Matrix.det_fin_one, Matrix.adjugate_fin_one,
    Matrix.one_mulVec]

/-- Joining the per-region nested index ranges enumerates
`range (m * q)` through `n2r`. -/
theorem join_regionInds (q : ℕ) (n2r : ℕ → ℕ) (m : ℕ) :
    ((List.range m).map (regionInds q n2r)).flatten
      = (List.range (m * q)).map n2r := by
  induction m with
  | zero => simp
  | succ m ih =>
    rw [List.range_succ, List.map_append, List.flatten_append, ih,
      Nat.succ_mul, List.range_add, List.map_append, List.map_map]
    simp [regionInds, Function.comp]

/-- Lookup misses every association list whose keys avoid the query. -/
theorem lookup_eq_none_of_not_mem_keys (l : List (String × ℚ)) (s : String)
    (h : s ∉ l.map Prod.fst) : l.lookup s = none := by
  induction l with
  | nil => rfl
  | cons p t ih =>
    simp only [List.map_cons, List.mem_cons] at h
    push_neg at h
    have hb : (s == p.1) = false := beq_eq_false_iff_ne.mpr h.1
    rw [List.lookup, hb]
    exact ih h.2

/-- Zipping truncates the value list to the length of the name list. -/
theorem zip_take_length (var_pars : List String) (vals : List ℚ) :
    var_pars.zip vals = var_pars.zip (vals.take var_pars.length) := by
  induction var_pars generalizing vals with
  | nil => rfl
  | cons a t ih =>
    cases vals with
    | nil => rfl
    | cons v vs => simp [ih vs]

/-- The keys of a zip are the first list truncated to the second list's
length. -/
theorem map_fst_zip_eq_take (var_pars : List String) (vals : List ℚ) :
    (var_pars.zip vals).map Prod.fst = var_pars.take vals.length := by
  induction var_pars generalizing vals with
  | nil => simp
  | cons a t ih =>
    cases vals with
    | nil => rfl
    | cons v vs => simp [ih vs]

/-- Concrete scenario: each entry of the amplitude covariance inverse is
`3`. -/
theorem covInv_c (i n j k : Fin 1) :
    get_amplitude_covariance civar cF i n j k = 3 := by
  simp [get_amplitude_covariance, f_mat_outer, cF, civar, Fin.sum_univ_three]

/-- Concrete matched scenario: the weighted-data vector is `6`. -/
theorem y_c (i n j : Fin 1) : y cF civar cdmatch i n j = 6 := by
  simp [y, cF, civar, cdmatch, Fin.sum_univ_three]
  norm_num

/-- Concrete matched scenario: the amplitude mean is `2`. -/
theorem amp_c (i n j : Fin 1) : get_amplitude_mean cdmatch civar cF i n j = 2 := by
  rw [get_amplitude_mean, solveLin_fin_one, covInv_c, y_c]
  norm_num

/-- Concrete mismatch scenario: the weighted-data vector is `8`. -/
theorem y_mis (i n j : Fin 1) : y cF civar cdmis i n j = 8 := by
  simp [y, cF, civar, cdmis, Fin.sum_univ_three]
  norm_num

/-- Concrete mismatch scenario: the best-fit amplitude is `8 / 3`. -/
theorem amp_mis (i n j : Fin 1) :
    get_amplitude_mean cdmis civar cF i n j = 8 / 3 := by
  rw [get_amplitude_mean, solveLin_fin_one, covInv_c, y_mis]
  norm_num

/-! ## Claims -/

/-- C1: for every data map, inverse-noise-variance map and mixing matrix of
consistent shapes, `get_amplitude_mean` returns, for each (polarization,
pixel) slice independently, the solution `T` of
`covariance_inverse · T = weighted_data`, where `covariance_inverse` is the
output of `get_amplitude_covariance` and the weighted data is the joint
contraction `y` of the mixing matrix, the inverse-variance map and the data
map over the frequency axis; in the concrete scenario (3 frequencies, 1
polarization, 1 component, `F = [1,1,1]`, `d = [2,2,2]`, `n_ivar = [1,1,1]`)
the covariance inverse is `3`, the weighted data is `6` and the amplitude
mean is `2`. -/
theorem C1_amplitude_mean_solves_system :
    (∀ (nc np nf npix : ℕ) (f_mat : Fin nc → Fin np → Fin nf → ℚ)
        (d_map n_ivar_map : Fin nf → Fin np → Fin npix → ℚ)
        (i : Fin np) (n : Fin npix),
        (get_amplitude_covariance n_ivar_map f_mat i n).det ≠ 0 →
        (get_amplitude_covariance n_ivar_map f_mat i n).mulVec
            (get_amplitude_mean d_map n_ivar_map f_mat i n)
          = y f_mat n_ivar_map d_map i n) ∧
    (∀ i n j k : Fin 1, get_amplitude_covariance civar cF i n j k = 3) ∧
    (∀ i n j : Fin 1, y cF civar cdmatch i n j = 6) ∧
    (∀ i n j : Fin 1, get_amplitude_mean cdmatch civar cF i n j = 2) := by
  refine ⟨?_, covInv_c, y_c, amp_c⟩
  intro nc np nf npix f_mat d_map n_ivar_map i n h
  exact solveLin_mulVec _ _ h

/-- Witness for C1 at the concrete scenario: the 1-by-1 information matrix
has nonzero determinant and the computed amplitude mean solves the system. -/
theorem C1_amplitude_mean_solves_system_witness :
    (get_amplitude_covariance civar cF 0 0).det ≠ 0 ∧
    (get_amplitude_covariance civar cF 0 0).mulVec
        (get_amplitude_mean cdmatch civar cF 0 0)
      = y cF civar cdmatch 0 0 := by
  have hdet : (get_amplitude_covariance civar cF (0 : Fin 1) (0 : Fin 1)).det ≠ 0 := by
    rw [Matrix.det_fin_one, covInv_c]
    norm_num
  exact ⟨hdet,
    C1_amplitude_mean_solves_system.1 1 1 3 1 cF cdmatch civar 0 0 hdet⟩

/-- C2: whenever the region pixel count evenly divides the base pixel count
and `nest2ring` permutes the base pixel index range, the full sweep of
`split_data` yields one group per region in ascending region-index order, the
flattened groups are a permutation of the full base pixel index set (no
overlap, no omission), and in the degenerate case
`nside_spec = nside_base` every group has exactly one base pixel. -/
theorem C2_full_sweep_partition :
    ∀ (nside_spec nside_base : ℕ) (n2r : ℕ → ℕ),
      nside2npix nside_spec ∣ nside2npix nside_base →
      ((List.range (nside2npix nside_base)).map n2r).Perm
          (List.range (nside2npix nside_base)) →
      ∃ groups,
        split_data nside_spec nside_base n2r IpixArg.none = Except.ok groups ∧
        groups = (List.range (nside2npix nside_spec)).map
          (regionInds (nside2npix nside_base / nside2npix nside_spec) n2r) ∧
        groups.length = nside2npix nside_spec ∧
        groups.flatten.Perm (List.range (nside2npix nside_base)) ∧
        (nside_spec = nside_base → ∀ g ∈ groups, g.length = 1) := by
  intro ns nb n2r hdvd hperm
  refine ⟨_, rfl, rfl, by simp, ?_, ?_⟩
  · rw [join_regionInds, Nat.mul_div_cancel' hdvd]
    exact hperm
  · intro h g hg
    subst h
    rcases List.mem_map.mp hg with ⟨i, hi, rfl⟩
    have hpos : 0 < nside2npix ns :=
      lt_of_le_of_lt (Nat.zero_le i) (List.mem_range.mp hi)
    simp [regionInds, Nat.div_self hpos]

/-- Witness for C2 with `nside_spec = 1`, `nside_base = 2` and the identity
standing in for the nested-to-ring conversion. -/
theorem C2_full_sweep_partition_witness :
    (nside2npix 1 ∣ nside2npix 2) ∧
    ∃ groups,
      split_data 1 2 (fun t => t) IpixArg.none = Except.ok groups ∧
      groups = (List.range (nside2npix 1)).map
        (regionInds (nside2npix 2 / nside2npix 1) (fun t => t)) ∧
      groups.length = nside2npix 1 ∧
      groups.flatten.Perm (List.range (nside2npix 2)) ∧
      ((1 : ℕ) = 2 → ∀ g ∈ groups, g.length = 1) :=
  ⟨by decide,
    C2_full_sweep_partition 1 2 (fun t => t) (by decide)
      (by simp)⟩

/-- Concrete mismatch scenario: the residual entries are
`[-2/3, -2/3, 4/3]` and the noise-weighted sum of their squares is `8/3`. -/
theorem chi2_mis : chi2 cF cdmis civar = 8 / 3 := by
  have hres : ∀ k : Fin 3, ∀ j l : Fin 1,
      chi2_res cF cdmis civar k j l = cdmis k j l - 8 / 3 := by
    intro k j l
    simp [chi2_res, amp_mis, cF, Fin.sum_univ_one]
  simp only [chi2, hres, Fin.sum_univ_three, Fin.sum_univ_one]
  norm_num [cdmis, civar]

/-- C3 counterexample: the spec's mismatch scenario value is wrong.  With
`F = [1,1,1]`, `n_ivar = [1,1,1]` and `d = [2,2,4]`, `chi2` refits the
amplitude to the given data (best fit `8/3`), so the chi-squared is `8/3`,
not `4`. -/
theorem C3_chi2_mismatch_counterexample :
    chi2 cF cdmis civar = 8 / 3 ∧ ((8 : ℚ) / 3) ≠ 4 :=
  ⟨chi2_mis, by norm_num⟩

/-- C3 (amended): `chi2` returns the noise-weighted sum of squared residuals
over all frequency/polarization/pixel entries, the residual being the data
minus the mixing matrix applied to the best-fit amplitude mean; in the
mismatch scenario (`d = [2,2,4]`) the best-fit amplitude is `8/3`, the
residual is `[-2/3, -2/3, 4/3]` and `chi2 = 8/3`. -/
theorem C3_chi2_weighted_residuals :
    (∀ (nc np nf npix : ℕ) (f_mat : Fin nc → Fin np → Fin nf → ℚ)
        (d_map n_ivar_map : Fin nf → Fin np → Fin npix → ℚ),
        chi2 f_mat d_map n_ivar_map
          = ∑ k, ∑ j, ∑ l, n_ivar_map k j l *
              (d_map k j l - ∑ i, f_mat i j k *
                get_amplitude_mean d_map n_ivar_map f_mat j l i) ^ 2) ∧
    (∀ i n j : Fin 1, get_amplitude_mean cdmis civar cF i n j = 8 / 3) ∧
    chi2_res cF cdmis civar 0 0 0 = -(2 / 3) ∧
    chi2_res cF cdmis civar 1 0 0 = -(2 / 3) ∧
    chi2_res cF cdmis civar 2 0 0 = 4 / 3 ∧
    chi2 cF cdmis civar = 8 / 3 := by
  refine ⟨?_, amp_mis, ?_, ?_, ?_, chi2_mis⟩
  · intro nc np nf npix f_mat d_map n_ivar_map
    unfold chi2 chi2_res
    refine Finset.sum_congr rfl fun k _ => Finset.sum_congr rfl fun j _ =>
      Finset.sum_congr rfl fun l _ => by ring
  all_goals
    simp [chi2_res, amp_mis, cF, cdmis, Fin.sum_univ_one]
    norm_num

/-- C4 (code bug in the source): `chi2perdof` never returns
`chi2 / dof` — its `dof` line evaluates the unbound name `amp_mean`, so every
call raises `NameError`, for every input (including those with positive
degrees of freedom). -/
theorem C4_chi2perdof_raises_nameError :
    ∀ (nc np nf npix : ℕ) (f_mat : Fin nc → Fin np → Fin nf → ℚ)
      (d_map n_ivar_map : Fin nf → Fin np → Fin npix → ℚ),
      chi2perdof f_mat d_map n_ivar_map = Except.error PyError.nameError :=
  fun _ _ _ _ _ _ _ => rfl

/-- C5 (code bug in the source): `pval` never reaches the chi-squared CDF
collaborator — its `dof` line evaluates the unbound name `amp_mean`, so every
call raises `NameError`, whatever CDF is installed. -/
theorem C5_pval_raises_nameError :
    ∀ (cdf : ℚ → ℤ → ℚ) (nc np nf npix : ℕ)
      (f_mat : Fin nc → Fin np → Fin nf → ℚ)
      (d_map n_ivar_map : Fin nf → Fin np → Fin npix → ℚ),
      pval cdf f_mat d_map n_ivar_map = Except.error PyError.nameError :=
  fun _ _ _ _ _ _ _ _ => rfl

/-- C6: construction fails (before any data is loaded, hence for every
possible loaded-data value) exactly when the union of fixed and variable
names differs from the model's required set or some name is declared both
fixed and variable; it succeeds when the union matches and the two are
disjoint. -/
theorem C6_parameter_validation :
    ∀ (fixed_pars var_pars model_pars : List String),
      ((model_pars.toFinset ≠ fixed_pars.toFinset ∪ var_pars.toFinset ∨
          ∃ p ∈ var_pars, p ∈ fixed_pars) →
        ∀ (α : Type) (read_data : α),
          mapLikeInit fixed_pars var_pars model_pars read_data
            = Except.error PyError.configError) ∧
      ((model_pars.toFinset = fixed_pars.toFinset ∪ var_pars.toFinset ∧
          ∀ p ∈ var_pars, p ∉ fixed_pars) →
        ∀ (α : Type) (read_data : α),
          mapLikeInit fixed_pars var_pars model_pars read_data
            = Except.ok read_data) := by
  intro fixed var model
  constructor
  · intro h α a
    by_cases hEx : ∃ p ∈ var, p ∈ fixed
    · simp [mapLikeInit, check_parameters, hEx]
    · have hB : model.toFinset ≠ fixed.toFinset ∪ var.toFinset :=
        h.resolve_right hEx
      simp [mapLikeInit, check_parameters, hEx, hB]
  · rintro ⟨hB, hdisj⟩ α a
    have hEx : ¬ ∃ p ∈ var, p ∈ fixed := by
      push_neg
      exact hdisj
    simp [mapLikeInit, check_parameters, hEx, hB]

/-- Witness for C6: a matching disjoint configuration constructs
successfully, and a mismatched one fails with the configuration error. -/
theorem C6_parameter_validation_witness :
    ((["a", "b"] : List String).toFinset
        = (["a"] : List String).toFinset ∪ (["b"] : List String).toFinset ∧
      ∀ p ∈ (["b"] : List String), p ∉ (["a"] : List String)) ∧
    mapLikeInit ["a"] ["b"] ["a", "b"] (0 : ℕ) = Except.ok 0 ∧
    mapLikeInit ["a"] ["b"] ["a"] (0 : ℕ) = Except.error PyError.configError :=
  ⟨⟨by decide, by decide⟩,
    (C6_parameter_validation ["a"] ["b"] ["a", "b"]).2
      ⟨by decide, by decide⟩ ℕ 0,
    (C6_parameter_validation ["a"] ["b"] ["a"]).1
      (Or.inl (by decide)) ℕ 0⟩

/-- C7: the marginal spectral likelihood is the scalar quadratic form
`amplitude_mean^T · covariance_inverse · amplitude_mean` summed over all
polarization and pixel slices, with both factors the amplitude estimator's
outputs for the same mixing matrix and data. -/
theorem C7_marginal_likelihood_quadratic_form :
    ∀ (nc np nf npix : ℕ) (f_mat : Fin nc → Fin np → Fin nf → ℚ)
      (d_map n_ivar_map : Fin nf → Fin np → Fin npix → ℚ),
      marginal_spectral_likelihood f_mat d_map n_ivar_map
        = ∑ i, ∑ j,
            Matrix.dotProduct
              (get_amplitude_mean d_map n_ivar_map f_mat i j)
              ((get_amplitude_covariance n_ivar_map f_mat i j).mulVec
                (get_amplitude_mean d_map n_ivar_map f_mat i j)) := by
  intro nc np nf npix f_mat d_map n_ivar_map
  unfold marginal_spectral_likelihood
  refine Finset.sum_congr rfl fun i _ => Finset.sum_congr rfl fun j _ => ?_
  simp only [Matrix.dotProduct, Matrix.mulVec, Finset.mul_sum]
  refine Finset.sum_congr rfl fun k _ => Finset.sum_congr rfl fun l _ => by
    ring

/-- C8 counterexample: with `nside_spec = 3` and `nside_base = 8` the pixel
counts are `108` and `768`, which do not divide evenly, yet `split_data`
succeeds instead of failing with a configuration error. -/
theorem C8_no_divisibility_check_counterexample :
    ¬ (nside2npix 3 ∣ nside2npix 8) ∧
    ∃ groups, split_data 3 8 (fun t => t) IpixArg.none = Except.ok groups :=
  ⟨by decide, ⟨_, rfl⟩⟩

/-- C8 (amended): `split_data` performs no divisibility check.  When the base
pixel count is not evenly divisible by the region pixel count it does not
fail; it silently truncates the per-region pixel count to the floor of the
ratio, so the full sweep covers strictly fewer than `npix_base` base
pixels. -/
theorem C8_indivisible_silent_truncation :
    ∀ (nside_spec nside_base : ℕ) (n2r : ℕ → ℕ),
      ¬ (nside2npix nside_spec ∣ nside2npix nside_base) →
      ∃ groups,
        split_data nside_spec nside_base n2r IpixArg.none
          = Except.ok groups ∧
        groups.flatten = (List.range (nside2npix nside_spec *
            (nside2npix nside_base / nside2npix nside_spec))).map n2r ∧
        groups.flatten.length < nside2npix nside_base := by
  intro ns nb n2r hndvd
  refine ⟨_, rfl, join_regionInds _ _ _, ?_⟩
  rw [join_regionInds]
  simp only [List.length_map, List.length_range]
  have hle : nside2npix ns * (nside2npix nb / nside2npix ns)
      ≤ nside2npix nb := by
    rw [mul_comm]
    exact Nat.div_mul_le_self _ _
  rcases lt_or_eq_of_le hle with h | h
  · exact h
  · exact absurd ⟨_, h.symm⟩ hndvd

/-- Witness for C8 (amended) at `nside_spec = 3`, `nside_base = 8`. -/
theorem C8_indivisible_silent_truncation_witness :
    ¬ (nside2npix 3 ∣ nside2npix 8) ∧
    ∃ groups,
      split_data 3 8 (fun t => t) IpixArg.none = Except.ok groups ∧
      groups.flatten = (List.range (nside2npix 3 *
          (nside2npix 8 / nside2npix 3))).map (fun t => t) ∧
      groups.flatten.length < nside2npix 8 :=
  ⟨by decide, C8_indivisible_silent_truncation 3 8 (fun t => t) (by decide)⟩

/-- C9: the parameter dictionary built by `f_matrix` truncates the pairing of
variable names and supplied values to the shorter of the two sequences:
values beyond the declared names are ignored, and a declared variable name
left without a value (and not among the fixed parameters, nor duplicated in
the paired prefix) is absent from the mapping handed to the spectral-model
adapter; no error is raised at any length. -/
theorem C9_f_matrix_zip_truncation :
    (∀ (var_pars : List String) (vals : List ℚ)
        (fixed_pars : List (String × ℚ)),
        buildSpecParams var_pars vals fixed_pars
          = buildSpecParams var_pars (vals.take var_pars.length) fixed_pars) ∧
    (∀ (var_pars : List String) (vals : List ℚ)
        (fixed_pars : List (String × ℚ)) (name : String),
        name ∈ var_pars.drop vals.length →
        name ∉ var_pars.take vals.length →
        fixed_pars.lookup name = none →
        buildSpecParams var_pars vals fixed_pars name = none) := by
  constructor
  · intro var vals fixed
    funext name
    unfold buildSpecParams
    rw [← zip_take_length var vals]
  · intro var vals fixed name _hdrop htake hfix
    unfold buildSpecParams
    rw [hfix]
    apply lookup_eq_none_of_not_mem_keys
    rw [List.map_reverse, List.mem_reverse, map_fst_zip_eq_take]
    exact htake

/-- Witness for C9: with `var_pars = [a, b]` and a single supplied value, the
unmatched name `b` is absent from the mapping. -/
theorem C9_f_matrix_zip_truncation_witness :
    ("b" ∈ (["a", "b"] : List String).drop 1 ∧
      "b" ∉ (["a", "b"] : List String).take 1 ∧
      ([("c", (5 : ℚ))].lookup "b") = none) ∧
    buildSpecParams ["a", "b"] [(1 : ℚ)] [("c", 5)] "b" = none :=
  ⟨⟨by decide, by decide, by decide⟩,
    C9_f_matrix_zip_truncation.2 ["a", "b"] [1] [("c", 5)] "b"
      (by decide) (by decide) (by decide)⟩

/-- C10: for a selection argument that is neither `None`, an `int`, nor a
`list` (a tuple, a range, a numpy integer, ...), iterating the generator
returned by `split_data` raises the unbound-local error for `ipixs` and
yields no data at all. -/
theorem C10_invalid_selection_unbound_local :
    ∀ (nside_spec nside_base : ℕ) (n2r : ℕ → ℕ),
      split_data nside_spec nside_base n2r IpixArg.other
        = Except.error PyError.unboundLocalError :=
  fun _ _ _ => rfl

end Bfore
